import Mathlib

/-!
# Verification of flask-admin (blueprint views and MongoAlchemy datastore)

A shallow embedding of `flask_admin/__init__.py` (the admin blueprint with its
five views over a SQLAlchemy session) and
`flask_admin/datastore/mongoalchemy.py` (the MongoAlchemy datastore backend
and its form generation), together with theorems checking the repository's
specification against this embedding.

Conventions of the embedding:
* A model instance is an association list from attribute names to string
  values (`setattr` overwrites in place or appends).
* The SQLAlchemy session is a pair of a pending-add list and a committed rows
  list; `commit` flushes pending adds into the rows.  `delete` followed by
  `commit` nets out to removing the row, which is how it is modelled.
* External library behaviour (WTForms form binding/validation, bson ObjectId
  parsing, pymongo cursor counting) is modelled from those libraries'
  documented semantics and marked as such at each definition.
-/

set_option autoImplicit false

namespace FlaskAdmin

/-- A model instance: an association list from attribute names to values
(first binding of a name wins on lookup, as for Python object attributes). -/
abbrev Instance := List (String × String)

/-- `getattr(instance, name)`: the value bound to `name`, if any. -/
def Instance.get (i : Instance) (n : String) : Option String :=
  (i.find? (fun p => p.1 = n)).map (fun p => p.2)

/-- `setattr(instance, name, v)`: overwrite the (unique) binding of `name`
when present, otherwise append a new binding. -/
def Instance.set : Instance → String → String → Instance
  | [], n, v => [(n, v)]
  | p :: t, n, v => if p.1 = n then (n, v) :: t else p :: Instance.set t n v

theorem Instance.get_set_same (i : Instance) (n v : String) :
    (i.set n v).get n = some v := by
  induction i with
  | nil => simp [Instance.set, Instance.get, List.find?]
  | cons p t ih =>
    by_cases hp : p.1 = n
    · simp [Instance.set, hp, Instance.get, List.find?]
    · simp only [Instance.set, if_neg hp, Instance.get, List.find?]
      rw [show (decide (p.1 = n)) = false by simp [hp]]
      exact ih

theorem Instance.get_set_ne (i : Instance) (n v m : String) (h : m ≠ n) :
    (i.set n v).get m = i.get m := by
  induction i with
  | nil =>
    simp only [Instance.set, Instance.get, List.find?]
    rw [decide_eq_false (Ne.symm h)]
  | cons p t ih =>
    by_cases hp : p.1 = n
    · simp only [Instance.set, if_pos hp, Instance.get, List.find?]
      rw [decide_eq_false (Ne.symm h),
          show (decide (p.1 = m)) = false by
            rw [hp]; exact decide_eq_false (Ne.symm h)]
    · simp only [Instance.set, if_neg hp, Instance.get, List.find?]
      cases hd : decide (p.1 = m) with
      | true => rfl
      | false => exact ih

/-! ## WTForms forms (external library, modelled from its documented API)

A bound WTForms form is a sequence of fields, each carrying a `name` and the
bound `data`; validating a form accumulates per-field error messages, and
`Form.validate()` succeeds exactly when no messages were produced. -/

/-- One bound form field: its `name` and its submitted `data`. -/
structure FormField where
  name : String
  data : String
deriving Repr, DecidableEq

/-- The fields of a bound form, in declaration order. -/
abbrev FormData := List FormField

/-- A bound WTForms form: its fields plus the validation messages
accumulated by `validate()` (field name paired with message). -/
structure BoundForm where
  fields : FormData
  errors : List (String × String)
deriving Repr, DecidableEq

/-- `Form.validate()`: true exactly when no validation messages were
accumulated. -/
def BoundForm.validate (f : BoundForm) : Bool := f.errors.isEmpty

/-! ## MongoAlchemy datastore backend (`flask_admin/datastore/mongoalchemy.py`) -/

/-- The document store: documents tagged with the name of their model
class.  `db_session.query(cls)` sees exactly the documents of that class. -/
structure MongoSession where
  docs : List (String × Instance)
deriving Repr, DecidableEq

/-- A MongoAlchemy query over one model class, with its `skip`/`limit`
window.  Modelled from the mongoalchemy query API. -/
structure MongoQuery where
  docs : List Instance
  skipped : Nat
  limited : Option Nat
deriving Repr, DecidableEq

/-- `db_session.query(model_class)`: all documents of the class, no window. -/
def MongoSession.query (s : MongoSession) (model_name : String) : MongoQuery :=
  ⟨(s.docs.filter (fun p => p.1 == model_name)).map (fun p => p.2), 0, none⟩

def MongoQuery.skip (q : MongoQuery) (n : Nat) : MongoQuery :=
  { q with skipped := n }

def MongoQuery.limit (q : MongoQuery) (n : Nat) : MongoQuery :=
  { q with limited := some n }

/-- `query.all()`: the documents with the skip/limit window applied. -/
def MongoQuery.all (q : MongoQuery) : List Instance :=
  match q.limited with
  | none => q.docs.drop q.skipped
  | some l => (q.docs.drop q.skipped).take l

/-- `query.count()`.  Modelled from mongoalchemy/pymongo semantics:
`Query.count()` calls `cursor.count(with_limit_and_skip=False)` by default,
so the count ignores the skip/limit window. -/
def MongoQuery.count (q : MongoQuery) : Nat := q.docs.length

/-- Modelled from the spec: `flask.ext.admin.util.Pagination` (not under
`src/`), the pagination descriptor carrying page number, page size, total
count and current-page items; also stands for
`flaskext.sqlalchemy.Pagination` on the relational side, whose constructor
receives the same four values (plus the query object). -/
structure Pagination where
  page : Nat
  per_page : Nat
  total : Nat
  items : List Instance
deriving Repr, DecidableEq

/-- `MongoAlchemyPagination.__init__`: wraps a windowed query with
`total_count=query.count()` and `items=query.all()`. -/
def MongoAlchemyPagination (page per_page : Nat) (query : MongoQuery) :
    Pagination :=
  ⟨page, per_page, query.count, query.all⟩

/-- `MongoAlchemyDatastore.create_model_pagination`: window the class query
by `skip((page - 1) * per_page).limit(per_page)` and wrap it. -/
def create_model_pagination (s : MongoSession) (model_name : String)
    (page per_page : Nat) : Pagination :=
  let query := ((s.query model_name).skip ((page - 1) * per_page)).limit
    per_page
  MongoAlchemyPagination page per_page query

/-- Modelled from bson semantics: constructing an `ObjectId` from a string
succeeds exactly for 24-character hexadecimal strings, and raises
`InvalidId` otherwise. -/
def isValidObjectId (s : String) : Bool :=
  s.length == 24 &&
    s.data.all (fun c => c.isDigit || ("abcdefABCDEF".data.contains c))

/-- `MongoAlchemyDatastore.delete_model_instance`: remove every document of
the class whose `mongo_id` equals the key and return `True`; when the key is
not a well-formed object id the comparison raises `InvalidId`, which is
caught, nothing is removed, and `False` is returned. -/
def delete_model_instance (s : MongoSession) (model_name model_key : String) :
    Bool × MongoSession :=
  if isValidObjectId model_key then
    (true, ⟨s.docs.filter (fun p =>
      !(p.1 == model_name && p.2.get "mongo_id" == some model_key))⟩)
  else
    (false, s)

/-- `MongoAlchemyDatastore.update_from_form`: copy each form field's data
onto the like-named attribute of the instance, skipping the field named
`mongo_id` (its value comes from the key/URL, never from form data). -/
def update_from_form (model_instance : Instance) (form : FormData) :
    Instance :=
  form.foldl
    (fun i field =>
      if field.name ≠ "mongo_id" then i.set field.name field.data else i)
    model_instance

/-! ## MongoAlchemy form generation (`ModelConverterBase` / `ModelConverter`) -/

/-- A MongoAlchemy model field as the converter sees it: the defining module
and class name of its type, its `required` flag, its default value (with
`ma.util.UNSET` already collapsed to `none`), and — for string fields — the
declared `min`/`max` length bounds (`none` when not declared). -/
structure MAField where
  moduleName : String
  typeName : String
  required : Bool
  default? : Option String
  min : Option Nat
  max : Option Nat
deriving Repr, DecidableEq

/-- The module-qualified type name, with `mongoalchemy.fields.` stripped:
the source drops the first 20 characters after a
`startswith('mongoalchemy.fields')` check.  The prefix test and the slice
are expressed on the underlying character lists (Python slices by code
point). -/
def typeString (f : MAField) : String :=
  let ts := f.moduleName ++ "." ++ f.typeName
  if ("mongoalchemy.fields".data).isPrefixOf ts.data then
    String.mk (ts.data.drop 20)
  else ts

/-- Python truthiness of an optional integer bound: `None` and `0` are both
falsy, so a declared bound of `0` behaves like no bound. -/
def truthy : Option Nat → Bool
  | none => false
  | some n => !(n == 0)

/-- A WTForms validator as injected by the converter. -/
inductive Validator where
  | Optional : Validator
  | Length (min max : Option Nat) : Validator
deriving Repr, DecidableEq

/-- The keyword arguments assembled by `convert` and passed to the
conversion method. -/
structure FieldArgs where
  validators : List Validator
  default? : Option String
deriving Repr, DecidableEq

/-- A generated WTForms form field.  flask-admin's converters only produce
`TextField`s, possibly with a disabled widget. -/
structure WTField where
  disabled : Bool
  validators : List Validator
  default? : Option String
deriving Repr, DecidableEq

/-- The conversion methods of `ModelConverter` that carry a
`_converter_for` tag (the others are commented out in the source). -/
inductive ConvFn where
  | conv_ObjectId : ConvFn
  | conv_String : ConvFn
deriving Repr, DecidableEq

/-- `ModelConverter.conv_ObjectId` renders a disabled text input;
`ModelConverter.conv_String` appends a `Length` validator with the field's
bounds when `ma_field.min or ma_field.max` is truthy. -/
def applyConv : ConvFn → MAField → FieldArgs → WTField
  | ConvFn.conv_ObjectId, _, kw => ⟨true, kw.validators, kw.default?⟩
  | ConvFn.conv_String, fld, kw =>
    if truthy fld.min || truthy fld.max then
      ⟨false, kw.validators ++ [Validator.Length fld.min fld.max],
        kw.default?⟩
    else
      ⟨false, kw.validators, kw.default?⟩

/-- The dispatch table `ModelConverterBase.__init__` builds for the default
`ModelConverter`: each method's `_converter_for` names mapped to it. -/
def defaultConverters : List (String × ConvFn) :=
  [("ObjectIdField", ConvFn.conv_ObjectId), ("StringField", ConvFn.conv_String)]

/-- Dictionary lookup in the converter table. -/
def lookupConv (converters : List (String × ConvFn)) (k : String) :
    Option ConvFn :=
  (converters.find? (fun p => p.1 = k)).map (fun p => p.2)

/-- `ModelConverterBase.convert`: assemble keyword arguments (start from
empty validators and the field's default, let any caller-supplied
`field_args` replace them, then append an `Optional` validator when the
field is not required); dispatch on the stripped module-qualified type name,
falling back to the bare class name; return nothing when neither is in the
table. -/
def convert (converters : List (String × ConvFn)) (f : MAField)
    (field_args : Option FieldArgs) : Option WTField :=
  let base : FieldArgs := ⟨[], f.default?⟩
  let updated := field_args.getD base
  let kw : FieldArgs :=
    if f.required then updated
    else ⟨updated.validators ++ [Validator.Optional], updated.default?⟩
  match lookupConv converters (typeString f) with
  | some c => some (applyConv c f kw)
  | none =>
    match lookupConv converters f.typeName with
    | some c => some (applyConv c f kw)
    | none => none

/-- The converter `convert` dispatches a field to, if any. -/
def resolvesTo (converters : List (String × ConvFn)) (f : MAField) :
    Option ConvFn :=
  match lookupConv converters (typeString f) with
  | some c => some c
  | none => lookupConv converters f.typeName

/-- `model_fields` (restricted to how the admin calls it, with no
`only`/`exclude`/`field_args`): convert each model field in order, silently
skipping every field the converter returns nothing for. -/
def model_fields (fields : List (String × MAField))
    (converters : List (String × ConvFn)) : List (String × WTField) :=
  fields.foldr
    (fun nf acc =>
      match convert converters nf.2 none with
      | some w => (nf.1, w) :: acc
      | none => acc) []

/-! ## Admin blueprint over a SQLAlchemy session (`flask_admin/__init__.py`) -/

/-- A registered model class.  `pk_name` is modelled from the spec: it is
what `_get_pk_name` (referenced by the views but not under `src/`) returns —
the primary/natural key attribute the edit/delete views look up by. -/
structure Model where
  name : String
  pk_name : String
deriving Repr, DecidableEq

/-- The SQLAlchemy session: instances added but not yet committed, and the
committed rows of the datastore, each tagged with its model's name. -/
structure Session where
  pending : List (String × Instance)
  rows : List (String × Instance)
deriving Repr, DecidableEq

/-- `db_session.query(model)`: the committed instances of the model. -/
def Session.query (s : Session) (model_name : String) : List Instance :=
  s.rows.filterMap (fun p => if p.1 = model_name then some p.2 else none)

/-- `db_session.add(instance)` for a transient instance: schedule an
insert. -/
def Session.add (s : Session) (model_name : String) (i : Instance) :
    Session :=
  { s with pending := s.pending ++ [(model_name, i)] }

/-- `db_session.commit()`: flush pending inserts into the rows. -/
def Session.commit (s : Session) : Session :=
  ⟨[], s.rows ++ s.pending⟩

/-- Remove the first occurrence of a row. -/
def removeFirst :
    List (String × Instance) → String × Instance → List (String × Instance)
  | [], _ => []
  | x :: xs, y => if x = y then xs else x :: removeFirst xs y

/-- `db_session.delete(instance)`: SQLAlchemy defers the DELETE to the
commit, but every view that deletes commits immediately afterwards, so the
net effect is modelled by removing the row here (`commit` then only flushes
pending inserts). -/
def Session.delete (s : Session) (model_name : String) (i : Instance) :
    Session :=
  { s with rows := removeFirst s.rows (model_name, i) }

/-- `db_session.add(instance)` on an instance that is already persistent,
followed by `commit`, issues an UPDATE of that row (SQLAlchemy
unit-of-work semantics): modelled as replacing the old row value with the
updated one. -/
def Session.updateRow (s : Session) (model_name : String)
    (old updated : Instance) : Session :=
  { s with rows := s.rows.map (fun p =>
      if p = (model_name, old) then (model_name, updated) else p) }

/-- `db_session.query(model).filter_by(pk=model_key)`: the instances of the
model whose primary-key attribute equals the key. -/
def filter_by_pk (s : Session) (model : Model) (model_key : String) :
    List Instance :=
  (s.query model.name).filter
    (fun i => i.get model.pk_name == some model_key)

/-- An exception escaping a view uncaught: `.one()` raises
`MultipleResultsFound` when the filtered query has more than one row, and
the views catch only `NoResultFound`. -/
inductive DBError where
  | multipleResultsFound : DBError
deriving Repr, DecidableEq

/-- HTTP request method, as the views branch on it. -/
inductive Method where
  | GET : Method
  | POST : Method
deriving Repr, DecidableEq

/-- The parts of the request the views read: the method, the submitted form
data, and the parsed `page` query parameter
(`int(request.args.get('page', '1'))`, read only by the list view). -/
structure Request where
  method : Method
  form : FormData
  page : Nat
deriving Repr, DecidableEq

/-- A view's response: a plain string body, a redirect, or a rendered
template with the data passed to it. -/
inductive Response where
  | text (body : String) : Response
  | redirect (location : String) : Response
  | renderIndex (admin_models : List String) : Response
  | renderList (template : String) (model_name : String)
      (pagination : Pagination) : Response
  | renderForm (template : String) (model_name : String)
      (form : BoundForm) : Response
deriving Repr, DecidableEq

/-- The state captured by the blueprint's view closures: the model registry
`model_dict`, the `list_view_pagination` page size, and the generated form
classes (`form_dict`); binding a form class to request data and/or an
object (`model_form(request.form, obj=...)`) is WTForms machinery, carried
here as an abstract binding function. -/
structure AdminContext where
  models : List Model
  list_view_pagination : Nat
  bindForm : String → Option FormData → Option Instance → BoundForm

/-- `model_name in model_dict.keys()` / `model_dict[model_name]`. -/
def AdminContext.lookupModel (ctx : AdminContext) (model_name : String) :
    Option Model :=
  ctx.models.find? (fun m => m.name == model_name)

/-- The default of the factory's `list_view_pagination` parameter. -/
def defaultListViewPagination : Nat := 25

/-- Modelled from the spec: `_populate_model_from_form` (referenced by the
views but not under `src/`) copies each validated form field's data onto
the like-named attribute of the instance. -/
def populate_model_from_form (model_instance : Instance) (form : BoundForm) :
    Instance :=
  form.fields.foldl (fun i field => i.set field.name field.data)
    model_instance

/-- `url_for('.list_view', model_name=...)` resolves, relative to the
blueprint mount, to the registered rule `/list/<model_name>/`. -/
def listViewUrl (model_name : String) : String :=
  "/list/" ++ model_name ++ "/"

/-- The `"%s cannot be accessed through this admin page"` error body. -/
def notRegisteredMsg (model_name : String) : String :=
  model_name ++ " cannot be accessed through this admin page"

/-- The `"%s not found: %s"` error body. -/
def notFoundMsg (model_name model_key : String) : String :=
  model_name ++ " not found: " ++ model_key

/-- `sorted(model_dict.keys())`, passed to every template. -/
def admin_models (ctx : AdminContext) : List String :=
  (ctx.models.map Model.name).insertionSort (fun a b => a ≤ b)

/-- The `index` view body. -/
def index_view (ctx : AdminContext) (s : Session) : Response × Session :=
  (Response.renderIndex (admin_models ctx), s)

/-- The `list_view` body: unregistered names get the plain error string;
otherwise the model query is windowed by
`limit(per_page).offset((page - 1) * per_page)` and rendered with a
pagination built from the unwindowed query's count. -/
def list_view (ctx : AdminContext) (s : Session) (model_name : String)
    (page : Nat) : Response × Session :=
  match ctx.lookupModel model_name with
  | none => (Response.text (notRegisteredMsg model_name), s)
  | some model =>
    let model_instances := s.query model.name
    let per_page := ctx.list_view_pagination
    let offset := (page - 1) * per_page
    let items := (model_instances.drop offset).take per_page
    let pagination : Pagination :=
      ⟨page, per_page, model_instances.length, items⟩
    (Response.renderList "admin/list.html" model_name pagination, s)

/-- The `add` view body: on GET render a blank form; on POST bind the
submitted data, and either populate a fresh instance, add it and commit,
redirecting to the list view, or re-render the form carrying its
validation messages. -/
def add_view (ctx : AdminContext) (s : Session) (model_name : String)
    (req : Request) : Response × Session :=
  match ctx.lookupModel model_name with
  | none => (Response.text (notRegisteredMsg model_name), s)
  | some model =>
    let model_instance : Instance := []
    match req.method with
    | Method.GET =>
      (Response.renderForm "admin/add.html" model_name
        (ctx.bindForm model_name none none), s)
    | Method.POST =>
      let form := ctx.bindForm model_name (some req.form) none
      if form.validate then
        let inst := populate_model_from_form model_instance form
        let s1 := (s.add model.name inst).commit
        (Response.redirect (listViewUrl model_name), s1)
      else
        (Response.renderForm "admin/add.html" model_name form, s)

/-- The `edit` view body: look the instance up by primary key (`.one()`:
no row caught as not-found, several rows an uncaught exception); on GET
render the populated form; on POST either update, commit and redirect, or
re-render the form with its messages. -/
def edit_view (ctx : AdminContext) (s : Session)
    (model_name model_key : String) (req : Request) :
    Except DBError (Response × Session) :=
  match ctx.lookupModel model_name with
  | none => Except.ok (Response.text (notRegisteredMsg model_name), s)
  | some model =>
    match filter_by_pk s model model_key with
    | [] => Except.ok (Response.text (notFoundMsg model_name model_key), s)
    | [model_instance] =>
      match req.method with
      | Method.GET =>
        Except.ok (Response.renderForm "admin/edit.html" model_name
          (ctx.bindForm model_name none (some model_instance)), s)
      | Method.POST =>
        let form :=
          ctx.bindForm model_name (some req.form) (some model_instance)
        if form.validate then
          let updated := populate_model_from_form model_instance form
          let s1 := (s.updateRow model.name model_instance updated).commit
          Except.ok (Response.redirect (listViewUrl model_name), s1)
        else
          Except.ok (Response.renderForm "admin/edit.html" model_name form, s)
    | _ => Except.error DBError.multipleResultsFound

/-- The `delete` view body: look the instance up by primary key, delete and
commit, redirecting to the list view; no match yields the plain not-found
string. -/
def delete_view (ctx : AdminContext) (s : Session)
    (model_name model_key : String) :
    Except DBError (Response × Session) :=
  match ctx.lookupModel model_name with
  | none => Except.ok (Response.text (notRegisteredMsg model_name), s)
  | some model =>
    match filter_by_pk s model model_key with
    | [] => Except.ok (Response.text (notFoundMsg model_name model_key), s)
    | [model_instance] =>
      let s1 := (s.delete model.name model_instance).commit
      Except.ok (Response.redirect (listViewUrl model_name), s1)
    | _ => Except.error DBError.multipleResultsFound

/-- The URL arguments a routed request carries (the routing rules always
supply the placeholders a view declares; views ignore the rest). -/
structure ViewArgs where
  model_name : String
  model_key : String
  req : Request
deriving Repr, DecidableEq

/-- A registered view function, in the uniform shape the decorator wraps. -/
abbrev AdminView := Session → ViewArgs → Except DBError (Response × Session)

/-- `create_index_view`'s inner function, before decoration. -/
def mk_index_view (ctx : AdminContext) : AdminView :=
  fun s _ => Except.ok (index_view ctx s)

/-- `create_list_view`'s inner function, before decoration. -/
def mk_list_view (ctx : AdminContext) : AdminView :=
  fun s a => Except.ok (list_view ctx s a.model_name a.req.page)

/-- `create_edit_view`'s inner function, before decoration. -/
def mk_edit_view (ctx : AdminContext) : AdminView :=
  fun s a => edit_view ctx s a.model_name a.model_key a.req

/-- `create_add_view`'s inner function, before decoration. -/
def mk_add_view (ctx : AdminContext) : AdminView :=
  fun s a => Except.ok (add_view ctx s a.model_name a.req)

/-- `create_delete_view`'s inner function, before decoration. -/
def mk_delete_view (ctx : AdminContext) : AdminView :=
  fun s a => delete_view ctx s a.model_name a.model_key

/-- The five url rules the factory registers, by endpoint name. -/
structure Blueprint where
  index : AdminView
  list_view : AdminView
  edit : AdminView
  add : AdminView
  delete : AdminView

/-- The dummy decorator installed when none is supplied: a wrapper that
calls the wrapped view with the same arguments. -/
def dummy_decorator : AdminView → AdminView := fun f => fun s a => f s a

/-- `create_admin_blueprint`, restricted to the view assembly: every view
function is wrapped by `view_decorator` (each `create_*_view` applies
`@view_decorator` to the function it registers), with the dummy decorator
standing in when none is supplied. -/
def create_admin_blueprint (ctx : AdminContext)
    (view_decorator : Option (AdminView → AdminView)) : Blueprint :=
  let vd := view_decorator.getD dummy_decorator
  { index := vd (mk_index_view ctx)
    list_view := vd (mk_list_view ctx)
    edit := vd (mk_edit_view ctx)
    add := vd (mk_add_view ctx)
    delete := vd (mk_delete_view ctx) }

/-! ## Support lemmas -/

theorem update_from_form_cons (i : Instance) (field : FormField)
    (rest : FormData) :
    update_from_form i (field :: rest) =
      update_from_form
        (if field.name ≠ "mongo_id" then i.set field.name field.data else i)
        rest := rfl

theorem update_from_form_get_of_not_named (form : FormData) (i : Instance)
    (n : String) (h : ∀ fld ∈ form, fld.name ≠ n) :
    (update_from_form i form).get n = i.get n := by
  induction form generalizing i with
  | nil => rfl
  | cons field rest ih =>
    rw [update_from_form_cons]
    rw [ih _ (fun fld hf => h fld (List.mem_cons_of_mem _ hf))]
    by_cases hmid : field.name ≠ "mongo_id"
    · rw [if_pos hmid]
      exact Instance.get_set_ne _ _ _ _
        (Ne.symm (h field (List.mem_cons_self _ _)))
    · rw [if_neg hmid]

theorem update_from_form_get_mongo_id (form : FormData) (i : Instance) :
    (update_from_form i form).get "mongo_id" = i.get "mongo_id" := by
  induction form generalizing i with
  | nil => rfl
  | cons field rest ih =>
    rw [update_from_form_cons]
    rw [ih]
    by_cases hmid : field.name ≠ "mongo_id"
    · rw [if_pos hmid]
      exact Instance.get_set_ne _ _ _ _ (Ne.symm hmid)
    · rw [if_neg hmid]

/-! ## Claim C9 -/

/-- Claim C9: `update_from_form` copies the data of every form field onto
the like-named attribute of the instance except the field named
`mongo_id`; the instance's `mongo_id` attribute is never written from form
data. -/
theorem C9_update_from_form_skips_mongo_id (i : Instance) (form : FormData)
    (hnodup : form.Pairwise (fun a b => a.name ≠ b.name)) :
    (update_from_form i form).get "mongo_id" = i.get "mongo_id" ∧
    ∀ fld ∈ form, fld.name ≠ "mongo_id" →
      (update_from_form i form).get fld.name = some fld.data := by
  refine ⟨update_from_form_get_mongo_id form i, ?_⟩
  induction form generalizing i with
  | nil => intro fld hf; exact absurd hf (List.not_mem_nil _)
  | cons field rest ih =>
    intro fld hf hne
    rcases List.mem_cons.mp hf with hfld | hfld
    · subst hfld
      rw [update_from_form_cons, if_pos hne]
      rw [update_from_form_get_of_not_named rest _ fld.name
        (fun b hb => Ne.symm ((List.pairwise_cons.mp hnodup).1 b hb))]
      exact Instance.get_set_same _ _ _
    · rw [update_from_form_cons]
      exact ih _ (List.pairwise_cons.mp hnodup).2 fld hfld hne

/-- Witness for C9 at a concrete instance and form. -/
theorem C9_witness :
    (update_from_form [("mongo_id", "abc"), ("name", "Stewart")]
        [⟨"mongo_id", "tampered"⟩, ⟨"name", "Mike"⟩]).get "mongo_id"
      = some "abc" ∧
    (update_from_form [("mongo_id", "abc"), ("name", "Stewart")]
        [⟨"mongo_id", "tampered"⟩, ⟨"name", "Mike"⟩]).get "name"
      = some "Mike" := by
  have h := C9_update_from_form_skips_mongo_id
    [("mongo_id", "abc"), ("name", "Stewart")]
    [⟨"mongo_id", "tampered"⟩, ⟨"name", "Mike"⟩] (by decide)
  exact ⟨h.1, h.2 ⟨"name", "Mike"⟩ (by decide) (by decide)⟩

/-! ## Claim C10 -/

/-- Claim C10: `delete_model_instance` returns `False` only when the key is
not a well-formed object id (and then leaves the datastore untouched); for
every well-formed key it returns `True`, including when no document of the
model carries that key — in which case the datastore is also unchanged, so
a `True` return does not imply a deletion happened. -/
theorem C10_delete_model_instance_result (s : MongoSession)
    (model_name model_key : String) :
    ((delete_model_instance s model_name model_key).1 = false ↔
      isValidObjectId model_key = false) ∧
    (isValidObjectId model_key = false →
      delete_model_instance s model_name model_key = (false, s)) ∧
    ((∀ p ∈ s.docs,
        ¬(p.1 = model_name ∧ p.2.get "mongo_id" = some model_key)) →
      isValidObjectId model_key = true →
      delete_model_instance s model_name model_key = (true, s)) := by
  refine ⟨?_, ?_, ?_⟩
  · by_cases hv : isValidObjectId model_key = true
    · unfold delete_model_instance
      rw [if_pos hv, hv]
    · have hv' : isValidObjectId model_key = false := by
        cases h : isValidObjectId model_key
        · rfl
        · exact absurd h hv
      unfold delete_model_instance
      rw [if_neg hv, hv']
  · intro hv'
    have hv : ¬isValidObjectId model_key = true := by
      rw [hv']
      exact Bool.false_ne_true
    unfold delete_model_instance
    rw [if_neg hv]
  · intro hdocs hv
    have hfilter : s.docs.filter (fun p =>
        !(p.1 == model_name && p.2.get "mongo_id" == some model_key))
        = s.docs := by
      apply List.filter_eq_self.mpr
      intro p hp
      have hnp := hdocs p hp
      by_cases h1 : p.1 = model_name
      · by_cases h2 : p.2.get "mongo_id" = some model_key
        · exact absurd ⟨h1, h2⟩ hnp
        · simp [h2]
      · simp [h1]
    unfold delete_model_instance
    rw [if_pos hv]
    cases s with
    | mk docs =>
      simp only [Prod.mk.injEq, MongoSession.mk.injEq]
      exact ⟨trivial, hfilter⟩

/-- Witness for C10: a malformed key is rejected, a well-formed key of an
absent document still returns `True` with the store unchanged. -/
theorem C10_witness :
    delete_model_instance ⟨[("Student", [("mongo_id", "aaaaaaaaaaaaaaaaaaaaaaaa")])]⟩
        "Student" "zz" = (false, ⟨[("Student", [("mongo_id", "aaaaaaaaaaaaaaaaaaaaaaaa")])]⟩) ∧
    delete_model_instance ⟨[("Student", [("mongo_id", "aaaaaaaaaaaaaaaaaaaaaaaa")])]⟩
        "Student" "bbbbbbbbbbbbbbbbbbbbbbbb"
      = (true, ⟨[("Student", [("mongo_id", "aaaaaaaaaaaaaaaaaaaaaaaa")])]⟩) := by
  have h1 := C10_delete_model_instance_result
    ⟨[("Student", [("mongo_id", "aaaaaaaaaaaaaaaaaaaaaaaa")])]⟩ "Student" "zz"
  have h2 := C10_delete_model_instance_result
    ⟨[("Student", [("mongo_id", "aaaaaaaaaaaaaaaaaaaaaaaa")])]⟩ "Student"
    "bbbbbbbbbbbbbbbbbbbbbbbb"
  exact ⟨h1.2.1 (by decide), h2.2.2 (by decide) (by decide)⟩

/-! ## Support lemmas for form generation -/

theorem convert_eq_applyConv (converters : List (String × ConvFn))
    (f : MAField) :
    convert converters f none =
      (resolvesTo converters f).map (fun c =>
        applyConv c f
          (if f.required then ⟨[], f.default?⟩
           else ⟨[Validator.Optional], f.default?⟩)) := by
  unfold convert resolvesTo
  cases lookupConv converters (typeString f) <;>
    cases lookupConv converters f.typeName <;> rfl

theorem model_fields_cons (a : String × MAField) (t : List (String × MAField))
    (c : List (String × ConvFn)) :
    model_fields (a :: t) c =
      match convert c a.2 none with
      | some w => (a.1, w) :: model_fields t c
      | none => model_fields t c := rfl

theorem mem_model_fields_names {fields : List (String × MAField)}
    {converters : List (String × ConvFn)} {n : String}
    (h : n ∈ (model_fields fields converters).map Prod.fst) :
    ∃ g, (n, g) ∈ fields ∧ (convert converters g none).isSome = true := by
  induction fields with
  | nil => cases h
  | cons a t ih =>
    rw [model_fields_cons] at h
    cases hc : convert converters a.2 none with
    | some w =>
      simp only [hc] at h
      rcases List.mem_cons.mp h with hn | hn
      · refine ⟨a.2, ?_, by rw [hc]; rfl⟩
        simp only [List.map_cons] at hn
        rw [hn]
        exact List.mem_cons_self _ _
      · obtain ⟨g, hg, hgs⟩ := ih hn
        exact ⟨g, List.mem_cons_of_mem _ hg, hgs⟩
    | none =>
      simp only [hc] at h
      obtain ⟨g, hg, hgs⟩ := ih h
      exact ⟨g, List.mem_cons_of_mem _ hg, hgs⟩

theorem keys_nodup_unique_val {l : List (String × MAField)}
    (h : (l.map Prod.fst).Nodup) {n : String} {f g : MAField}
    (hf : (n, f) ∈ l) (hg : (n, g) ∈ l) : f = g := by
  induction l with
  | nil => cases hf
  | cons a t ih =>
    rw [List.map_cons] at h
    have hhead := (List.nodup_cons.mp h).1
    have htail := (List.nodup_cons.mp h).2
    rcases List.mem_cons.mp hf with hfa | hf'
    · rcases List.mem_cons.mp hg with hga | hg'
      · exact congrArg Prod.snd (hfa.trans hga.symm)
      · refine absurd ?_ hhead
        have ha1 : a.1 = n := by rw [← hfa]
        rw [ha1]
        exact List.mem_map_of_mem Prod.fst hg'
    · rcases List.mem_cons.mp hg with hga | hg'
      · refine absurd ?_ hhead
        have ha1 : a.1 = n := by rw [← hga]
        rw [ha1]
        exact List.mem_map_of_mem Prod.fst hf'
      · exact ih htail hf' hg'

/-! ## Claim C6 -/

/-- Claim C6: a model field whose type name matches no entry of the
converter table — neither under its (stripped) module-qualified name nor
under its bare class name — produces no form field and raises no error:
`convert` yields nothing and the generated field dictionary simply omits
the field. -/
theorem C6_unmapped_type_skipped (converters : List (String × ConvFn))
    (fields : List (String × MAField)) (n : String) (f : MAField)
    (hmem : (n, f) ∈ fields)
    (hnodup : (fields.map Prod.fst).Nodup)
    (hq : lookupConv converters (typeString f) = none)
    (hb : lookupConv converters f.typeName = none) :
    convert converters f none = none ∧
    n ∉ (model_fields fields converters).map Prod.fst := by
  have hconv : convert converters f none = none := by
    rw [convert_eq_applyConv]
    unfold resolvesTo
    rw [hq, hb]
    rfl
  refine ⟨hconv, fun hn => ?_⟩
  obtain ⟨g, hg, hgs⟩ := mem_model_fields_names hn
  rw [keys_nodup_unique_val hnodup hg hmem, hconv] at hgs
  cases hgs

set_option maxRecDepth 16384 in
set_option maxHeartbeats 1000000 in
/-- Witness for C6: an `IntField` (no converter registered for it) is
skipped while the other fields are converted. -/
theorem C6_witness :
    convert defaultConverters
      ⟨"mongoalchemy.fields", "IntField", true, none, none, none⟩ none
      = none ∧
    "count" ∉ (model_fields
      [("name", ⟨"mongoalchemy.fields", "StringField", true, none, none, none⟩),
       ("count", ⟨"mongoalchemy.fields", "IntField", true, none, none, none⟩)]
      defaultConverters).map Prod.fst := by
  have h := C6_unmapped_type_skipped defaultConverters
    [("name", ⟨"mongoalchemy.fields", "StringField", true, none, none, none⟩),
     ("count", ⟨"mongoalchemy.fields", "IntField", true, none, none, none⟩)]
    "count" ⟨"mongoalchemy.fields", "IntField", true, none, none, none⟩
    (by decide) (by decide) (by decide) (by decide)
  exact h

/-! ## Claim C7 -/

/-- Claim C7: whenever the default converter produces a form field, a model
field that is not declared required gets an `Optional` validator among the
generated field's validators, and a string field declaring a min or max
length bound (in the Python-truthiness sense: a `0` bound counts as not
declared) gets a `Length` validator carrying exactly those bounds. -/
theorem C7_injected_validators (f : MAField) (w : WTField)
    (hc : convert defaultConverters f none = some w) :
    (f.required = false → Validator.Optional ∈ w.validators) ∧
    (resolvesTo defaultConverters f = some ConvFn.conv_String →
      (truthy f.min || truthy f.max) = true →
      Validator.Length f.min f.max ∈ w.validators) := by
  rw [convert_eq_applyConv] at hc
  cases hr : resolvesTo defaultConverters f with
  | none => rw [hr] at hc; cases hc
  | some c =>
    rw [hr, Option.map_some'] at hc
    have hw := (Option.some.injEq _ _ ▸ hc : applyConv c f _ = w)
    subst hw
    constructor
    · intro hreq
      cases c with
      | conv_ObjectId => simp [applyConv, hreq]
      | conv_String =>
        by_cases hb : (truthy f.min || truthy f.max) = true
        · simp [applyConv, hreq, hb]
        · simp [applyConv, hreq, hb]
    · intro hcs htruthy
      have hcc : c = ConvFn.conv_String := by
        injection hcs with h1
      subst hcc
      cases hreq : f.required <;> simp [applyConv, htruthy, hreq]

set_option maxRecDepth 16384 in
set_option maxHeartbeats 1000000 in
/-- Witness for C7: a non-required string field with bounds 1 and 10 gets
both validators. -/
theorem C7_witness :
    Validator.Optional ∈
      (WTField.mk false
        [Validator.Optional, Validator.Length (some 1) (some 10)]
        none).validators ∧
    Validator.Length (some 1) (some 10) ∈
      (WTField.mk false
        [Validator.Optional, Validator.Length (some 1) (some 10)]
        none).validators := by
  have h := C7_injected_validators
    ⟨"mongoalchemy.fields", "StringField", false, none, some 1, some 10⟩
    ⟨false, [Validator.Optional, Validator.Length (some 1) (some 10)], none⟩
    (by decide)
  exact ⟨h.1 rfl, h.2 (by decide) rfl⟩

/-! ## Support lemmas for the session and the views -/

theorem commit_add_of_clean (s : Session) (m : String) (i : Instance)
    (hclean : s.pending = []) :
    (s.add m i).commit = ⟨[], s.rows ++ [(m, i)]⟩ := by
  unfold Session.add Session.commit
  rw [hclean]
  simp

theorem query_length_commit_add (s : Session) (m : String) (i : Instance)
    (hclean : s.pending = []) :
    (((s.add m i).commit).query m).length = (s.query m).length + 1 := by
  rw [commit_add_of_clean s m i hclean]
  show ((s.rows ++ [(m, i)]).filterMap
    (fun p => if p.1 = m then some p.2 else none)).length = _
  rw [List.filterMap_append]
  simp [Session.query]

theorem mem_rows_of_mem_query {s : Session} {m : String} {i : Instance}
    (h : i ∈ s.query m) : (m, i) ∈ s.rows := by
  unfold Session.query at h
  obtain ⟨p, hp, hpi⟩ := List.mem_filterMap.mp h
  by_cases h1 : p.1 = m
  · rw [if_pos h1] at hpi
    injection hpi with h2
    have hpeq : p = (m, i) := by
      cases p with
      | mk a b =>
        simp only at h1 h2
        rw [h1, h2]
    rwa [hpeq] at hp
  · rw [if_neg h1] at hpi
    cases hpi

theorem removeFirst_cons (x : String × Instance)
    (xs : List (String × Instance)) (y : String × Instance) :
    removeFirst (x :: xs) y = if x = y then xs else x :: removeFirst xs y :=
  rfl

theorem filterMap_removeFirst_length (rows : List (String × Instance))
    (m : String) (i : Instance) (hmem : (m, i) ∈ rows) :
    ((removeFirst rows (m, i)).filterMap
        (fun p => if p.1 = m then some p.2 else none)).length + 1
      = (rows.filterMap (fun p => if p.1 = m then some p.2 else none)).length
    := by
  induction rows with
  | nil => cases hmem
  | cons x xs ih =>
    rw [removeFirst_cons]
    by_cases hx : x = (m, i)
    · rw [if_pos hx, hx, List.filterMap_cons]
      simp
    · rw [if_neg hx]
      have hmem' : (m, i) ∈ xs := by
        rcases List.mem_cons.mp hmem with h | h
        · exact absurd h.symm hx
        · exact h
      rw [List.filterMap_cons, List.filterMap_cons]
      cases hfx : (if x.1 = m then some x.2 else none) with
      | none =>
        simp only [hfx]
        exact ih hmem'
      | some v =>
        simp only [hfx, List.length_cons]
        rw [← ih hmem']

/-! ## Claim C3 -/

/-- Claim C3: for a model name absent from the registry, each of the list,
edit, add and delete views returns the plain string
`"<model_name> cannot be accessed through this admin page"` as its
response body — not a structured error or an HTTP error code — and leaves
the session untouched. -/
theorem C3_unregistered_model_plain_error
    (ctx : AdminContext) (s : Session) (name key : String) (req : Request)
    (page : Nat) (h : ctx.lookupModel name = none) :
    list_view ctx s name page = (Response.text (notRegisteredMsg name), s) ∧
    edit_view ctx s name key req
      = Except.ok (Response.text (notRegisteredMsg name), s) ∧
    add_view ctx s name req = (Response.text (notRegisteredMsg name), s) ∧
    delete_view ctx s name key
      = Except.ok (Response.text (notRegisteredMsg name), s) ∧
    notRegisteredMsg name
      = name ++ " cannot be accessed through this admin page" := by
  refine ⟨?_, ?_, ?_, ?_, rfl⟩ <;>
    simp only [list_view, edit_view, add_view, delete_view, h]

/-! ## Claim C4 -/

/-- Claim C4: for a registered model and a 1-based page number `n`, the
list view renders the window of instances starting at offset
`(n - 1) * page_size` with at most `page_size` items, where `page_size` is
the `list_view_pagination` value (default 25), together with a pagination
object carrying the page number, the page size, the items and the total
count. -/
theorem C4_list_view_window
    (ctx : AdminContext) (s : Session) (name : String) (model : Model)
    (n : Nat) (hm : ctx.lookupModel name = some model) (_hn : 1 ≤ n) :
    list_view ctx s name n =
      (Response.renderList "admin/list.html" name
        ⟨n, ctx.list_view_pagination, (s.query model.name).length,
          ((s.query model.name).drop
              ((n - 1) * ctx.list_view_pagination)).take
            ctx.list_view_pagination⟩, s) ∧
    (((s.query model.name).drop ((n - 1) * ctx.list_view_pagination)).take
        ctx.list_view_pagination).length ≤ ctx.list_view_pagination ∧
    defaultListViewPagination = 25 := by
  refine ⟨?_, List.length_take_le _ _, rfl⟩
  simp only [list_view, hm]

/-! ## Claim C5 -/

/-- The number of documents of one model class in the document store. -/
def MongoSession.countOf (s : MongoSession) (model_name : String) : Nat :=
  (s.docs.filter (fun p => p.1 == model_name)).length

/-- Claim C5: the pagination descriptor built for a list view carries a
total equal to the full instance count of the model — not the size of the
page window — in the relational backend (the blueprint's `list_view`) and
in the document-store backend (`create_model_pagination`). -/
theorem C5_pagination_total_is_total_count
    (ctx : AdminContext) (s : Session) (name : String) (model : Model)
    (n : Nat) (hm : ctx.lookupModel name = some model)
    (ms : MongoSession) (mname : String) (page per_page : Nat) :
    (∃ items, (list_view ctx s name n).1
        = Response.renderList "admin/list.html" name
            ⟨n, ctx.list_view_pagination, (s.query model.name).length,
              items⟩) ∧
    (create_model_pagination ms mname page per_page).total
      = ms.countOf mname := by
  constructor
  · exact ⟨((s.query model.name).drop ((n - 1) * ctx.list_view_pagination)).take
      ctx.list_view_pagination, by simp only [list_view, hm]⟩
  · simp [create_model_pagination, MongoAlchemyPagination, MongoQuery.count,
      MongoSession.query, MongoQuery.skip, MongoQuery.limit,
      MongoSession.countOf, List.length_map]

/-! ## Claim C8 -/

/-- Claim C8: a supplied `view_decorator` wraps every one of the five
registered views (index, list, edit, add, delete), so a login-enforcing
decorator gates every admin route; with no decorator supplied, every
registered view behaves identically to its unwrapped form. -/
theorem C8_view_decorator_wraps_every_view
    (ctx : AdminContext) (d : AdminView → AdminView) :
    ((create_admin_blueprint ctx (some d)).index = d (mk_index_view ctx) ∧
     (create_admin_blueprint ctx (some d)).list_view
       = d (mk_list_view ctx) ∧
     (create_admin_blueprint ctx (some d)).edit = d (mk_edit_view ctx) ∧
     (create_admin_blueprint ctx (some d)).add = d (mk_add_view ctx) ∧
     (create_admin_blueprint ctx (some d)).delete
       = d (mk_delete_view ctx)) ∧
    (∀ s a,
      (create_admin_blueprint ctx none).index s a = mk_index_view ctx s a ∧
      (create_admin_blueprint ctx none).list_view s a
        = mk_list_view ctx s a ∧
      (create_admin_blueprint ctx none).edit s a = mk_edit_view ctx s a ∧
      (create_admin_blueprint ctx none).add s a = mk_add_view ctx s a ∧
      (create_admin_blueprint ctx none).delete s a
        = mk_delete_view ctx s a) :=
  ⟨⟨rfl, rfl, rfl, rfl, rfl⟩, fun _ _ => ⟨rfl, rfl, rfl, rfl, rfl⟩⟩

/-! ## Claim C1 -/

/-- Claim C1: a POST to the add view of a registered model whose form data
validates populates a fresh instance, adds it to the session, commits, and
redirects to that model's list view — the committed datastore gains exactly
that one instance; a POST whose form data fails validation re-renders the
add form carrying its validation messages and leaves the session
unchanged. -/
theorem C1_add_view_post
    (ctx : AdminContext) (s : Session) (name : String) (model : Model)
    (req : Request)
    (hm : ctx.lookupModel name = some model)
    (hpost : req.method = Method.POST)
    (hclean : s.pending = []) :
    ((ctx.bindForm name (some req.form) none).validate = true →
      add_view ctx s name req =
        (Response.redirect (listViewUrl name),
         ⟨[], s.rows ++ [(model.name,
            populate_model_from_form []
              (ctx.bindForm name (some req.form) none))]⟩) ∧
      (((s.add model.name
            (populate_model_from_form []
              (ctx.bindForm name (some req.form) none))).commit).query
          model.name).length
        = (s.query model.name).length + 1) ∧
    ((ctx.bindForm name (some req.form) none).validate = false →
      add_view ctx s name req =
        (Response.renderForm "admin/add.html" name
          (ctx.bindForm name (some req.form) none), s)) := by
  constructor
  · intro hv
    constructor
    · simp only [add_view, hm, hpost, hv, if_true]
      rw [commit_add_of_clean s model.name _ hclean]
    · exact query_length_commit_add s model.name _ hclean
  · intro hv
    simp [add_view, hm, hpost, hv]

/-! ## Claim C2 -/

/-- Claim C2: the delete view of a registered model deletes the unique
instance whose primary key equals the key, commits, and redirects to that
model's list view (the committed count drops by one); when no instance
matches the key it returns the plain string
`"<model_name> not found: <key>"` and the session is unchanged. -/
theorem C2_delete_view_by_pk
    (ctx : AdminContext) (s : Session) (name key : String) (model : Model)
    (hm : ctx.lookupModel name = some model)
    (hclean : s.pending = []) :
    (∀ i, filter_by_pk s model key = [i] →
      delete_view ctx s name key =
        Except.ok (Response.redirect (listViewUrl name),
          ⟨[], removeFirst s.rows (model.name, i)⟩) ∧
      (((s.delete model.name i).commit).query model.name).length + 1
        = (s.query model.name).length) ∧
    (filter_by_pk s model key = [] →
      delete_view ctx s name key =
        Except.ok (Response.text (notFoundMsg name key), s) ∧
      notFoundMsg name key = name ++ " not found: " ++ key) := by
  constructor
  · intro i hone
    have himem : i ∈ s.query model.name := by
      have hif : i ∈ filter_by_pk s model key := by
        rw [hone]
        exact List.mem_cons_self _ _
      unfold filter_by_pk at hif
      exact List.mem_of_mem_filter hif
    have hrows := mem_rows_of_mem_query himem
    constructor
    · simp only [delete_view, hm, hone]
      unfold Session.delete Session.commit
      rw [hclean, List.append_nil]
    · unfold Session.delete Session.commit Session.query
      rw [hclean, List.append_nil]
      exact filterMap_removeFirst_length s.rows model.name i hrows
  · intro hnone
    refine ⟨?_, rfl⟩
    simp only [delete_view, hm, hnone]

/-! ## Concrete contexts and witnesses for the view claims -/

/-- A concrete context for the witnesses: one registered model `Teacher`
with primary key `id`, the default page size, and a form binding that
rejects a submission exactly when some field's submitted data is empty. -/
def ctxW : AdminContext :=
  { models := [⟨"Teacher", "id"⟩]
    list_view_pagination := 25
    bindForm := fun _ fd _ =>
      let fields := fd.getD []
      ⟨fields,
        if fields.any (fun fld => fld.data = "") then
          [("name", "This field is required.")]
        else []⟩ }

/-- A concrete session for the witnesses: one committed `Teacher` row and
one committed `Student` row, nothing pending. -/
def sW : Session :=
  ⟨[], [("Teacher", [("id", "1"), ("name", "Mrs. Jones")]),
        ("Student", [("id", "2"), ("name", "Stewart")])]⟩

/-- A concrete document store for the C5 witness. -/
def msW : MongoSession :=
  ⟨[("Student", [("mongo_id", "a")]), ("Student", [("mongo_id", "b")]),
    ("Course", [("mongo_id", "c")])]⟩

/-- Witness for C1: a validating POST inserts and redirects; a failing
POST re-renders the form with its message and changes nothing. -/
theorem C1_witness :
    add_view ctxW sW "Teacher" ⟨Method.POST, [⟨"name", "Mr. K"⟩], 1⟩
      = (Response.redirect "/list/Teacher/",
         ⟨[], sW.rows ++ [("Teacher", [("name", "Mr. K")])]⟩) ∧
    add_view ctxW sW "Teacher" ⟨Method.POST, [⟨"name", ""⟩], 1⟩
      = (Response.renderForm "admin/add.html" "Teacher"
          ⟨[⟨"name", ""⟩], [("name", "This field is required.")]⟩, sW) := by
  have h1 := C1_add_view_post ctxW sW "Teacher" ⟨"Teacher", "id"⟩
    ⟨Method.POST, [⟨"name", "Mr. K"⟩], 1⟩ rfl rfl rfl
  have h2 := C1_add_view_post ctxW sW "Teacher" ⟨"Teacher", "id"⟩
    ⟨Method.POST, [⟨"name", ""⟩], 1⟩ rfl rfl rfl
  exact ⟨(h1.1 (by decide)).1, h2.2 (by decide)⟩

/-- Witness for C2: deleting the present teacher removes its row and
redirects; deleting a missing key returns the not-found string. -/
theorem C2_witness :
    delete_view ctxW sW "Teacher" "1"
      = Except.ok (Response.redirect "/list/Teacher/",
          ⟨[], [("Student", [("id", "2"), ("name", "Stewart")])]⟩) ∧
    delete_view ctxW sW "Teacher" "9"
      = Except.ok (Response.text "Teacher not found: 9", sW) := by
  have h1 := C2_delete_view_by_pk ctxW sW "Teacher" "1" ⟨"Teacher", "id"⟩
    rfl rfl
  have h9 := C2_delete_view_by_pk ctxW sW "Teacher" "9" ⟨"Teacher", "id"⟩
    rfl rfl
  exact ⟨(h1.1 [("id", "1"), ("name", "Mrs. Jones")] (by decide)).1,
    (h9.2 (by decide)).1⟩

/-- Witness for C3: an unregistered model name gets the plain error string
from all four model-specific views. -/
theorem C3_witness :
    list_view ctxW sW "Course" 1
      = (Response.text "Course cannot be accessed through this admin page",
         sW) ∧
    delete_view ctxW sW "Course" "1"
      = Except.ok
          (Response.text "Course cannot be accessed through this admin page",
           sW) := by
  have h := C3_unregistered_model_plain_error ctxW sW "Course" "1"
    ⟨Method.GET, [], 1⟩ 1 rfl
  exact ⟨h.1, h.2.2.2.1⟩

/-- Witness for C4 at page 1 of the concrete context. -/
theorem C4_witness :
    list_view ctxW sW "Teacher" 1
      = (Response.renderList "admin/list.html" "Teacher"
          ⟨1, 25, 1, [[("id", "1"), ("name", "Mrs. Jones")]]⟩, sW) ∧
    defaultListViewPagination = 25 := by
  have h := C4_list_view_window ctxW sW "Teacher" ⟨"Teacher", "id"⟩ 1 rfl
    (by decide)
  exact ⟨h.1, h.2.2⟩

/-- Witness for C5: the mongo pagination of page 2 still reports the full
`Student` count, and the relational pagination reports the full `Teacher`
count. -/
theorem C5_witness :
    (∃ items, (list_view ctxW sW "Teacher" 2).1
        = Response.renderList "admin/list.html" "Teacher"
            ⟨2, 25, 1, items⟩) ∧
    (create_model_pagination msW "Student" 2 25).total
      = msW.countOf "Student" := by
  have h := C5_pagination_total_is_total_count ctxW sW "Teacher"
    ⟨"Teacher", "id"⟩ 2 rfl msW "Student" 2 25
  exact ⟨h.1, h.2⟩

end FlaskAdmin
